import Mathlib

/-!
Shallow embedding of the idinfo multi-format identifier detection engine
(package `internal/parsers` plus the shared `internal/types` result model).

Each Go parser (`CanParse` / `Parse`) is translated into executable Lean
functions over `String`.  Go regular expressions are translated into explicit
character-class predicates.  Machine integers are modelled as `Nat` / `Int`
with explicit bounds where the Go code masks or checks them.  Calls into
external identifier libraries (google/uuid, oklog/ulid, mongo ObjectID,
segmentio/ksuid, rs/xid, and so on) are modelled from the specification of the
corresponding textual formats; every such model carries a doc comment saying
what it stands for.  Clock reads (`time.Now()`) are modelled as explicit
parameters.
-/

namespace IdInfo

/-! ### ASCII character classes and Go string helpers -/

def isAsciiDigit (c : Char) : Bool := '0' ≤ c && c ≤ '9'

def isAsciiUpper (c : Char) : Bool := 'A' ≤ c && c ≤ 'Z'

def isAsciiLower (c : Char) : Bool := 'a' ≤ c && c ≤ 'z'

def isHexChar (c : Char) : Bool :=
  isAsciiDigit c || ('a' ≤ c && c ≤ 'f') || ('A' ≤ c && c ≤ 'F')

def hexVal (c : Char) : Nat :=
  if isAsciiDigit c then c.toNat - '0'.toNat
  else if 'a' ≤ c && c ≤ 'f' then c.toNat - 'a'.toNat + 10
  else if 'A' ≤ c && c ≤ 'F' then c.toNat - 'A'.toNat + 10
  else 0

def asciiToLower (c : Char) : Char :=
  if isAsciiUpper c then Char.ofNat (c.toNat + 32) else c

def asciiToUpper (c : Char) : Char :=
  if isAsciiLower c then Char.ofNat (c.toNat - 32) else c

/-- Go `strings.ToLower`, restricted to ASCII (all names and identifier
alphabets in this code base are ASCII). -/
def goToLower (s : String) : String := ⟨s.data.map asciiToLower⟩

/-- Go `strings.ToUpper`, restricted to ASCII. -/
def goToUpper (s : String) : String := ⟨s.data.map asciiToUpper⟩

/-- Go `strings.EqualFold`, restricted to ASCII simple case folding. -/
def goEqualFold (a b : String) : Bool :=
  a.data.map asciiToLower == b.data.map asciiToLower

/-- Go `unicode.IsSpace` restricted to the ASCII whitespace characters
(space, tab, newline, vertical tab, form feed, carriage return). -/
def isGoSpace (c : Char) : Bool :=
  c = ' ' || c = '\t' || c = '\n' || c = '\x0b' || c = '\x0c' || c = '\r'

/-- Go `strings.TrimSpace` (ASCII whitespace model). -/
def goTrimSpace (s : String) : String :=
  ⟨((s.data.dropWhile isGoSpace).reverse.dropWhile isGoSpace).reverse⟩

/-- Go `strconv.ParseUint(s, 10, 64)`: decimal digits only, no sign,
value must fit in 64 bits. -/
def goParseUint64 (s : String) : Option Nat :=
  if s.data ≠ [] && s.data.all isAsciiDigit then
    let v := s.data.foldl (fun acc c => acc * 10 + (c.toNat - '0'.toNat)) 0
    if v ≤ 18446744073709551615 then some v else none
  else none

/-! ### Fixed-width digit expansions (big-endian), used for byte arrays -/

/-- Big-endian base-`b` digits of `n`, exactly `w` digits (high digits of a
too-large `n` are cut off; all callers check bounds first). -/
def natToDigitsBE (b : Nat) : Nat → Nat → List Nat
  | 0, _ => []
  | w + 1, n => natToDigitsBE b w (n / b) ++ [n % b]

/-- Go `big.Int.Bytes()` of a `uint64`-sized value: minimal big-endian byte
slice, empty for zero. -/
def natMinBytes64 (n : Nat) : List Nat :=
  (natToDigitsBE 256 8 n).dropWhile (· = 0)

/-- Minimal big-endian bytes of a value known to fit in 64 bytes
(Go `big.Int.Bytes()` for the Base58 decoder). -/
def natMinBytes512 (n : Nat) : List Nat :=
  (natToDigitsBE 256 64 n).dropWhile (· = 0)

/-- Go `fmt.Sprintf` with a `%0wx` verb: lowercase hex, left-padded with
zeros to width `w` (longer if the value needs more digits). -/
def hexDigitChar (n : Nat) : Char :=
  if n < 10 then Char.ofNat ('0'.toNat + n) else Char.ofNat ('a'.toNat + n - 10)

def hexPadded (w : Nat) (n : Nat) : List Char :=
  let ds := (natToDigitsBE 16 16 n).dropWhile (· = 0)
  let ds := if ds = [] then [0] else ds
  (List.replicate (w - ds.length) '0') ++ ds.map hexDigitChar

/-- Go `fmt.Sprintf` with the `%064b` verb for a nonnegative 64-bit value:
64 ASCII characters, each the byte of a binary digit. -/
def bits64Ascii (n : Nat) : List Nat :=
  (natToDigitsBE 2 64 n).map (fun b => 48 + b)

/-! ### The shared result model (`internal/types.IDInfo`)

Only the fields inspected by the claims are modelled: `IDType`, `Version`,
`Standard`, `Size`, `Entropy`, `DateTime` (as nanoseconds since the Unix
epoch) and `Binary` (as a list of byte values).  The `Integer`, `Hex`,
`Sequence`, `Node1/2`, `Base64` and `Extra` fields are never read by any
claim and are omitted. -/

structure IDInfo where
  idType : String
  version : String := ""
  standard : String
  size : Nat
  entropy : Option Nat := none
  datetimeNanos : Option Int := none
  binary : List Nat := []
  deriving DecidableEq

/-- A registered decoder: the `types.IDParser` interface restricted to the
operations the detection engine calls (`Name`, `CanParse`, `Parse`). -/
structure Decoder where
  name : String
  canParse : String → Bool
  parse : String → Option IDInfo

/-! ### Identifier alphabets (character classes of the Go regexes) -/

/-- `[0-9A-Za-z]`: base62. -/
def isBase62Char (c : Char) : Bool :=
  isAsciiDigit c || isAsciiUpper c || isAsciiLower c

/-- Crockford base32, uppercase: `[0-9A-HJKMNP-TV-Z]` (A-Z without I, L, O, U). -/
def isCrockfordUpper (c : Char) : Bool :=
  isAsciiDigit c || (isAsciiUpper c && c ≠ 'I' && c ≠ 'L' && c ≠ 'O' && c ≠ 'U')

/-- Crockford base32, lowercase: `[0-9a-hjkmnp-tv-z]` (a-z without i, l, o, u). -/
def isCrockfordLower (c : Char) : Bool :=
  isAsciiDigit c || (isAsciiLower c && c ≠ 'i' && c ≠ 'l' && c ≠ 'o' && c ≠ 'u')

/-- The TSID regex class `[0-9A-HJ-KM-NP-TV-ZILOa-hj-km-np-tv-zilo]`:
Crockford in either case, plus the ambiguous letters I, L, O (but not U). -/
def isTsidChar (c : Char) : Bool :=
  isAsciiDigit c || (isAsciiUpper c && c ≠ 'U') || (isAsciiLower c && c ≠ 'u')

/-- Crockford value of an uppercase/lowercase base32 digit, with the
ambiguity folding I, L into 1 and O into 0. -/
def crockfordVal (c : Char) : Nat :=
  let u := asciiToUpper c
  if u = 'I' || u = 'L' then 1
  else if u = 'O' then 0
  else if isAsciiDigit u then u.toNat - '0'.toNat
  else
    -- letters after removing I, L, O, U map to 10..31 in alphabet order
    let base := u.toNat - 'A'.toNat
    let skipped :=
      (if u > 'I' then 1 else 0) + (if u > 'L' then 1 else 0) +
      (if u > 'O' then 1 else 0) + (if u > 'U' then 1 else 0)
    10 + base - skipped

/-- `[0-9a-v]`: the xid base32-hex alphabet. -/
def isXidChar (c : Char) : Bool :=
  isAsciiDigit c || ('a' ≤ c && c ≤ 'v')

def xidVal (c : Char) : Nat :=
  if isAsciiDigit c then c.toNat - '0'.toNat else c.toNat - 'a'.toNat + 10

/-- Base62 digit value in the KSUID alphabet `0-9A-Za-z`. -/
def base62Val (c : Char) : Nat :=
  if isAsciiDigit c then c.toNat - '0'.toNat
  else if isAsciiUpper c then c.toNat - 'A'.toNat + 10
  else c.toNat - 'a'.toNat + 36

/-- The Bitcoin Base58 alphabet (digits without 0, letters without O, I, l). -/
def isBase58Char (c : Char) : Bool :=
  ('1' ≤ c && c ≤ '9') || (isAsciiUpper c && c ≠ 'I' && c ≠ 'O') ||
  (isAsciiLower c && c ≠ 'l')

/-- Index of a character in the Base58 alphabet string
`123456789ABCDEFGHJKLMNPQRSTUVWXYZabcdefghijkmnopqrstuvwxyz`. -/
def base58Val (c : Char) : Nat :=
  if '1' ≤ c && c ≤ '9' then c.toNat - '1'.toNat
  else if isAsciiUpper c then
    9 + (c.toNat - 'A'.toNat) - (if c > 'I' then 1 else 0) - (if c > 'O' then 1 else 0)
  else
    33 + (c.toNat - 'a'.toNat) - (if c > 'l' then 1 else 0)

/-- The ShortUUID base57 alphabet
`23456789ABCDEFGHJKLMNPQRSTUVWXYZabcdefghijkmnopqrstuvwxyz`
(alphanumeric without 0, 1, I, O, l). -/
def isBase57Char (c : Char) : Bool :=
  ('2' ≤ c && c ≤ '9') || (isAsciiUpper c && c ≠ 'I' && c ≠ 'O') ||
  (isAsciiLower c && c ≠ 'l')

/-- The Firebase PushID alphabet class `[-0-9A-Z_a-z]`. -/
def isPushIDChar (c : Char) : Bool :=
  c = '-' || isAsciiDigit c || isAsciiUpper c || c = '_' || isAsciiLower c

/-- Index of a character in the PushID alphabet
`-0123456789ABCDEFGHIJKLMNOPQRSTUVWXYZ_abcdefghijklmnopqrstuvwxyz`. -/
def pushIDVal (c : Char) : Nat :=
  if c = '-' then 0
  else if isAsciiDigit c then 1 + (c.toNat - '0'.toNat)
  else if isAsciiUpper c then 11 + (c.toNat - 'A'.toNat)
  else if c = '_' then 37
  else 38 + (c.toNat - 'a'.toNat)

/-- The NanoID default alphabet (also the class of the NanoID regex
`[A-Za-z0-9_-]`): base62 plus `_` and `-`. -/
def isNanoIDChar (c : Char) : Bool :=
  isBase62Char c || c = '_' || c = '-'

/-- Index of a character in the NanoID alphabet
`_-0123456789abcdefghijklmnopqrstuvwxyzABCDEFGHIJKLMNOPQRSTUVWXYZ`. -/
def nanoIDVal (c : Char) : Nat :=
  if c = '_' then 0
  else if c = '-' then 1
  else if isAsciiDigit c then 2 + (c.toNat - '0'.toNat)
  else if isAsciiLower c then 12 + (c.toNat - 'a'.toNat)
  else 38 + (c.toNat - 'A'.toNat)

/-- `[A-Z2-7]`: the RFC 4648 base32 alphabet (without padding). -/
def isBase32StdChar (c : Char) : Bool :=
  isAsciiUpper c || ('2' ≤ c && c ≤ '7')

def base32StdVal (c : Char) : Nat :=
  if isAsciiUpper c then c.toNat - 'A'.toNat else 26 + (c.toNat - '2'.toNat)

/-! ### Models of the external codecs the decoders call

The spec treats the per-format encoding libraries as black-box codecs
("assumed supplied by mature libraries").  They are not part of this
repository, so each is modelled here from the published textual format of
the identifier family. -/

/-- Numeric value of a digit list under a given digit-value function. -/
def digitsValue (val : Char → Nat) (b : Nat) (l : List Char) : Nat :=
  l.foldl (fun acc c => acc * b + val c) 0

/-- Modelled from the spec: Go `encoding/hex.DecodeString` — succeeds on an
even-length string of hex digits and yields its bytes. -/
def goHexDecode (s : String) : Option (List Nat) :=
  if s.data.all isHexChar && s.length % 2 = 0 then
    some ((natToDigitsBE 256 (s.length / 2) (digitsValue hexVal 16 s.data)))
  else none

/-- Modelled from the spec: `google/uuid.Parse` for the two shapes the
claims exercise — the canonical 36-character hyphenated form
`xxxxxxxx-xxxx-xxxx-xxxx-xxxxxxxxxxxx` and the plain 32-hex-digit form.
Returns the 16 bytes of the UUID. -/
def uuidLibParse (s : String) : Option (List Nat) :=
  let l := s.data
  if s.length = 36 then
    let hexPart := (l.enum.filter (fun p => p.1 ≠ 8 && p.1 ≠ 13 && p.1 ≠ 18 && p.1 ≠ 23)).map (·.2)
    if l.get? 8 = some '-' && l.get? 13 = some '-' && l.get? 18 = some '-' &&
        l.get? 23 = some '-' && hexPart.all isHexChar then
      some (natToDigitsBE 256 16 (digitsValue hexVal 16 hexPart))
    else none
  else if s.length = 32 then
    if l.all isHexChar then some (natToDigitsBE 256 16 (digitsValue hexVal 16 l)) else none
  else none

/-- Modelled from the spec: `oklog/ulid.Parse` — a 26-character Crockford
base32 string (case-insensitive) whose value fits in 128 bits (first
character at most `7`); yields the 16 bytes. -/
def ulidLibParse (s : String) : Option (List Nat) :=
  let l := s.data.map asciiToUpper
  if s.length = 26 && l.all isCrockfordUpper &&
      (match l with | c :: _ => c ≤ '7' | [] => false) then
    some (natToDigitsBE 256 16 (digitsValue crockfordVal 32 l))
  else none

/-- Modelled from the spec: `primitive.ObjectIDFromHex` — exactly 24 hex
digits; yields the 12 bytes. -/
def objectIDFromHex (s : String) : Option (List Nat) :=
  if s.length = 24 && s.data.all isHexChar then
    some (natToDigitsBE 256 12 (digitsValue hexVal 16 s.data))
  else none

/-- Modelled from the spec: `segmentio/ksuid.Parse` — exactly 27 base62
characters whose value fits in 160 bits; yields the 20 bytes. -/
def ksuidLibParse (s : String) : Option (List Nat) :=
  if s.length = 27 && s.data.all isBase62Char &&
      digitsValue base62Val 62 s.data < 2 ^ 160 then
    some (natToDigitsBE 256 20 (digitsValue base62Val 62 s.data))
  else none

/-- Modelled from the spec: `rs/xid.FromString` — exactly 20 characters of
the `0-9a-v` base32-hex alphabet encoding a 96-bit id (the final 4 bits of
the 100-bit expansion are padding); yields the 12 bytes. -/
def xidFromString (s : String) : Option (List Nat) :=
  if s.length = 20 && s.data.all isXidChar then
    some (natToDigitsBE 256 12 (digitsValue xidVal 32 s.data / 16))
  else none

/-- Modelled from the spec: `nrednav/cuid2.IsCuid` — a lowercase letter
followed by lowercase letters and digits, total length between 2 and 32. -/
def cuid2IsCuid (s : String) : Bool :=
  match s.data with
  | c :: rest =>
      2 ≤ s.length && s.length ≤ 32 && isAsciiLower c &&
        rest.all (fun d => isAsciiLower d || isAsciiDigit d)
  | [] => false

/-- Modelled from the spec: `scru128.Parse` — the canonical SCRU128 text
form is exactly 25 case-insensitive base36 digits encoding a 128-bit value;
yields the canonical (lowercase) string of the id, which is what the Go
code reads back through `id.String()`. -/
def isBase36Char (c : Char) : Bool :=
  isAsciiDigit c || isAsciiUpper c || isAsciiLower c

def base36Val (c : Char) : Nat :=
  if isAsciiDigit c then c.toNat - '0'.toNat
  else if isAsciiUpper c then c.toNat - 'A'.toNat + 10
  else c.toNat - 'a'.toNat + 10

def base36DigitChar (n : Nat) : Char :=
  if n < 10 then Char.ofNat ('0'.toNat + n) else Char.ofNat ('a'.toNat + n - 10)

def scru128LibParse (s : String) : Option String :=
  if s.length = 25 && s.data.all isBase36Char &&
      digitsValue base36Val 36 s.data < 2 ^ 128 then
    some ⟨(natToDigitsBE 36 25 (digitsValue base36Val 36 s.data)).map base36DigitChar⟩
  else none

/-- Canonical 8-4-4-4-12 hyphenated lowercase hex form of a 128-bit value
(the output of `uuid.UUID.String()`). -/
def uuidHyphenated (v : Nat) : String :=
  let h := (natToDigitsBE 16 32 v).map hexDigitChar
  ⟨h.take 8 ++ '-' :: (h.drop 8).take 4 ++ '-' :: (h.drop 12).take 4 ++
    '-' :: (h.drop 16).take 4 ++ '-' :: h.drop 20⟩

/-- Index of a character in the base57 alphabet. -/
def base57Val (c : Char) : Nat :=
  if '2' ≤ c && c ≤ '9' then c.toNat - '2'.toNat
  else if isAsciiUpper c then
    8 + (c.toNat - 'A'.toNat) - (if c > 'I' then 1 else 0) - (if c > 'O' then 1 else 0)
  else
    32 + (c.toNat - 'a'.toNat) - (if c > 'l' then 1 else 0)

/-- Modelled from the spec: `shortuuid.DefaultEncoder.Decode` — a base57
string (alphabet without 0, 1, I, O, l) whose value fits in 128 bits;
yields the canonical hyphenated string of the decoded UUID. -/
def shortuuidDecode (s : String) : Option String :=
  if s.data ≠ [] && s.data.all isBase57Char &&
      digitsValue base57Val 57 s.data < 2 ^ 128 then
    some (uuidHyphenated (digitsValue base57Val 57 s.data))
  else none

/-- The Sqids default alphabet is the 62 alphanumeric characters. -/
def isSqidsChar (c : Char) : Bool := isBase62Char c

/-- Modelled from the spec: `sqids.Sqids.Decode` with the default
configuration, reduced to what the engine observes — whether the decoded
number list is non-empty.  Decode returns the empty list whenever the input
contains a character outside the alphabet; a single character carries no
number chunk; for longer alphabet-valid inputs the decoder produces at
least one number (the internal shuffled-alphabet chunking is a black-box
codec detail the spec delegates to the library). -/
def sqidsDecodeNonEmpty (s : String) : Bool :=
  s.data.all isSqidsChar && s.length ≥ 2

/-- Splits a character list at its last underscore:
`lastUnderscoreSplit l = some (p, suf)` iff `l = p ++ '_' :: suf` and
`suf` contains no underscore; `none` iff `l` contains no underscore. -/
def lastUnderscoreSplit : List Char → Option (List Char × List Char)
  | [] => none
  | c :: rest =>
    match lastUnderscoreSplit rest with
    | some (p, suf) => some (c :: p, suf)
    | none => if c = '_' then some ([], rest) else none

/-- Modelled from the spec: `typeid.Parse` for prefixed TypeIDs (the Go
code only reaches the library when the input contains an underscore) — the
part before the last underscore is a non-empty prefix of at most 63
lowercase letters and underscores beginning and ending with a letter, and
the part after it is a 26-character lowercase Crockford base32 suffix whose
first character is at most `7`. -/
def typeidLibOk (s : String) : Bool :=
  match lastUnderscoreSplit s.data with
  | none => false
  | some (p, suf) =>
      p ≠ [] && p.length ≤ 63 &&
      p.all (fun c => isAsciiLower c || c = '_') &&
      (match p with | c :: _ => isAsciiLower c | [] => false) &&
      (match p.getLast? with | some c => isAsciiLower c | none => false) &&
      suf.length = 26 && suf.all isCrockfordLower &&
      (match suf with | c :: _ => c ≤ '7' | [] => false)

/-- Modelled from the spec: Go `encoding/base32.StdEncoding.DecodeString`
— the padded RFC 4648 form: length a multiple of 8, `=` only as a suffix
of length 0, 1, 3, 4 or 6, data characters from `[A-Z2-7]`; yields the
decoded bytes. -/
def base32PadDecode (s : String) : Option (List Nat) :=
  let body := (s.data.reverse.dropWhile (· = '=')).reverse
  let pad := s.length - body.length
  if s.length % 8 = 0 && body.all isBase32StdChar &&
      (pad = 0 || pad = 1 || pad = 3 || pad = 4 || pad = 6) then
    some (natToDigitsBE 256 (body.length * 5 / 8)
      (digitsValue base32StdVal 32 body / 2 ^ (body.length * 5 % 8)))
  else none

/-- Modelled from the spec: Go base32 decoding with `NoPadding` — any
number of `[A-Z2-7]` characters whose count is a valid unpadded base32
length (not 1, 3 or 6 modulo 8); yields the decoded bytes. -/
def base32NoPadDecode (s : String) : Option (List Nat) :=
  if s.data.all isBase32StdChar &&
      s.length % 8 ≠ 1 && s.length % 8 ≠ 3 && s.length % 8 ≠ 6 then
    some (natToDigitsBE 256 (s.length * 5 / 8)
      (digitsValue base32StdVal 32 s.data / 2 ^ (s.length * 5 % 8)))
  else none

/-! ### More encoding helpers shared by the decoder translations -/

/-- Big-endian value of a byte list. -/
def bytesValueBE (l : List Nat) : Nat :=
  l.foldl (fun acc b => acc * 256 + b) 0

/-- Lowercase hex string of a byte list (Go `hex.EncodeToString`). -/
def bytesToHexLower (l : List Nat) : String :=
  ⟨l.flatMap (fun b => [hexDigitChar (b / 16), hexDigitChar (b % 16)])⟩

/-- The uppercase Crockford base32 digit alphabet used by ULID strings. -/
def crockfordDigitChar (n : Nat) : Char :=
  "0123456789ABCDEFGHJKMNPQRSTVWXYZ".data.getD n '0'

/-- The KSUID base62 digit alphabet `0-9A-Za-z`. -/
def base62DigitChar (n : Nat) : Char :=
  if n < 10 then Char.ofNat ('0'.toNat + n)
  else if n < 36 then Char.ofNat ('A'.toNat + n - 10)
  else Char.ofNat ('a'.toNat + n - 36)

/-- The xid base32-hex digit alphabet `0-9a-v`. -/
def xidDigitChar (n : Nat) : Char :=
  if n < 10 then Char.ofNat ('0'.toNat + n) else Char.ofNat ('a'.toNat + n - 10)

/-! ### The 19 format decoders (`internal/parsers`) -/

namespace UUIDParser

/-- `UUIDParser.CanParse`: strip hyphens, require 32 hex digits, then a
full `uuid.Parse` validation. -/
def canParse (s : String) : Bool :=
  let cleaned : String := ⟨s.data.filter (· ≠ '-')⟩
  if cleaned.length ≠ 32 then false
  else if (goHexDecode cleaned).isNone then false
  else (uuidLibParse s).isSome

/-- The version switch of `UUIDParser.Parse`: the Go code builds the base
record and then assigns the `Version`, `Entropy` and `DateTime` fields per
version, so the switch is modelled as the triple of those assignments.
Version 1 passes `u.Time()` — the 60-bit count of 100ns intervals from the
first 8 bytes — directly to `time.Unix(0, timestamp)` as nanoseconds. -/
def versionFields (bytes : List Nat) : String × Option Nat × Option Int :=
  let version := bytes.getD 6 0 / 16
  if version = 1 then
    ("1 (timestamp and MAC address)", some 14,
      some ((bytesValueBE (bytes.take 4) +
        bytesValueBE ((bytes.drop 4).take 2) * 2 ^ 32 +
        (bytesValueBE ((bytes.drop 6).take 2) % 4096) * 2 ^ 48 : Nat) : Int))
  else if version = 2 then ("2 (DCE security)", some 62, none)
  else if version = 3 then ("3 (namespace name based with MD5)", some 122, none)
  else if version = 4 then ("4 (random)", some 122, none)
  else if version = 5 then ("5 (namespace name based with SHA-1)", some 122, none)
  else if version = 6 then ("6 (reordered timestamp and MAC address)", some 14, none)
  else if version = 7 then
    ("7 (sortable timestamp and random)", some 74,
      some (((bytesValueBE (bytes.take 6) : Nat) : Int) * 1000000))
  else if version = 8 then ("8 (custom)", some 122, none)
  else if bytes.all (· = 0) then ("Nil UUID", none, none)
  else if bytes.all (· = 255) then ("Max UUID", none, none)
  else ("Unknown version " ++ toString version, none, none)

/-- `UUIDParser.Parse`: decode through `uuid.Parse` and fill the result per
the version switch in `uuid.go`. -/
def parse (s : String) : Option IDInfo :=
  match uuidLibParse s with
  | none => none
  | some bytes =>
    some { idType := "UUID (RFC-9562)", version := (versionFields bytes).1,
           standard := uuidHyphenated (bytesValueBE bytes), size := 128,
           entropy := (versionFields bytes).2.1,
           datetimeNanos := (versionFields bytes).2.2, binary := bytes }

end UUIDParser

namespace ULIDParser

/-- The regex `^[0-7][0-9A-HJKMNP-TV-Z]{25}$`. -/
def regexMatch : List Char → Bool
  | c :: rest => ('0' ≤ c && c ≤ '7') && rest.length = 25 && rest.all isCrockfordUpper
  | [] => false

/-- `ULIDParser.CanParse`. -/
def canParse (s : String) : Bool :=
  if s.length ≠ 26 then false else regexMatch s.data

/-- `ULIDParser.Parse`: decode through `ulid.Parse`; timestamp is the first
48 bits in milliseconds, entropy is the fixed 80 bits. -/
def parse (s : String) : Option IDInfo :=
  match ulidLibParse s with
  | none => none
  | some bytes =>
    let tsMs := bytesValueBE (bytes.take 6)
    some { idType := "ULID (Universally Unique Lexicographically Sortable Identifier)",
           standard := ⟨(natToDigitsBE 32 26 (bytesValueBE bytes)).map crockfordDigitChar⟩,
           size := 128, entropy := some 80,
           datetimeNanos := some ((tsMs : Int) * 1000000), binary := bytes }

end ULIDParser

namespace ObjectIDParser

/-- `ObjectIDParser.CanParse`: the regex `^[0-9a-fA-F]{24}$` behind a
length gate. -/
def canParse (s : String) : Bool :=
  if s.length ≠ 24 then false else s.data.all isHexChar

/-- `ObjectIDParser.Parse`: decode through `primitive.ObjectIDFromHex`;
timestamp is the first 4 bytes in seconds, entropy the fixed estimate 40. -/
def parse (s : String) : Option IDInfo :=
  match objectIDFromHex s with
  | none => none
  | some bytes =>
    let tsSec := bytesValueBE (bytes.take 4)
    some { idType := "MongoDB ObjectId", standard := bytesToHexLower bytes,
           size := 96, entropy := some 40,
           datetimeNanos := some ((tsSec : Int) * 1000000000), binary := bytes }

end ObjectIDParser

namespace KSUIDParser

/-- `KSUIDParser.CanParse`: length 27, the regex `^[0-9A-Za-z]{27}$`, then
a full `ksuid.Parse` validation. -/
def canParse (s : String) : Bool :=
  if s.length ≠ 27 then false
  else if !(s.data.all isBase62Char) then false
  else (ksuidLibParse s).isSome

/-- `KSUIDParser.Parse`: decode through `ksuid.Parse`; timestamp is the
first 4 bytes in seconds since the KSUID epoch 1400000000. -/
def parse (s : String) : Option IDInfo :=
  match ksuidLibParse s with
  | none => none
  | some bytes =>
    let tsSec := bytesValueBE (bytes.take 4) + 1400000000
    some { idType := "KSUID (K-Sortable Unique Identifier)",
           standard := ⟨(natToDigitsBE 62 27 (bytesValueBE bytes)).map base62DigitChar⟩,
           size := 160, entropy := some 128,
           datetimeNanos := some ((tsSec : Int) * 1000000000), binary := bytes }

end KSUIDParser

namespace XidParser

/-- `XidParser.CanParse`: length 20, the regex `^[0-9a-v]{20}$`, then a
full `xid.FromString` validation. -/
def canParse (s : String) : Bool :=
  if s.length ≠ 20 then false
  else if !(s.data.all isXidChar) then false
  else (xidFromString s).isSome

/-- `XidParser.Parse`: decode through `xid.FromString`; timestamp is the
first 4 bytes in seconds, entropy the fixed estimate 56. -/
def parse (s : String) : Option IDInfo :=
  match xidFromString s with
  | none => none
  | some bytes =>
    let tsSec := bytesValueBE (bytes.take 4)
    some { idType := "Xid (globally unique sortable id)",
           standard := ⟨(natToDigitsBE 32 20 (bytesValueBE bytes * 16)).map xidDigitChar⟩,
           size := 96, entropy := some 56,
           datetimeNanos := some ((tsSec : Int) * 1000000000), binary := bytes }

end XidParser

namespace CUIDParser

/-- `CUIDParser.CanParse`: length 4..32, the regex `^[a-z0-9]+$`, then the
official `cuid2.IsCuid` validation. -/
def canParse (s : String) : Bool :=
  if s.length < 4 || s.length > 32 then false
  else if !(s.data.all (fun c => isAsciiLower c || isAsciiDigit c)) then false
  else cuid2IsCuid s

/-- Numeric value `fmt.Sprintf` receives for one CUID character
(digits as 0..9, letters as 10..35). -/
def charVal (c : Char) : Nat :=
  if isAsciiDigit c then c.toNat - '0'.toNat else c.toNat - 'a'.toNat + 10

/-- Minimal lowercase hex digits of a value below 36 (the `%x` verb the Go
code applies per character: one digit below 16, two digits from 16 on). -/
def hexOfVal (n : Nat) : List Char :=
  if n < 16 then [hexDigitChar n] else [hexDigitChar (n / 16), hexDigitChar (n % 16)]

/-- `CUIDParser.Parse`: re-check `CanParse`, build the per-character hex
string, convert it to bytes only when its length is even, and estimate
entropy as the integer part of `length * 5.2` (the float product modelled
exactly as `length * 52 / 10`, which agrees on all lengths up to 32). -/
def parse (s : String) : Option IDInfo :=
  if !canParse s then none
  else
    let hexStr := s.data.flatMap (fun c => hexOfVal (charVal c))
    let binary :=
      if hexStr.length % 2 = 0 && hexStr ≠ [] then
        natToDigitsBE 256 (hexStr.length / 2) (digitsValue hexVal 16 hexStr)
      else []
    some { idType := "CUID v2 (Collision-resistant Unique Identifier)",
           standard := s, size := s.length * 6,
           entropy := some (s.length * 52 / 10), binary := binary }

end CUIDParser

namespace SCRU128Parser

/-- The regex class `[0-9A-Za-z_-]`. -/
def isRegexChar (c : Char) : Bool := isBase62Char c || c = '_' || c = '-'

/-- `SCRU128Parser.CanParse`: length 26, the regex `^[0-9A-Za-z_-]{26}$`,
then a full `scru128.Parse` validation.  (The canonical SCRU128 text form
is 25 base36 digits, so the library rejects every 26-character string and
this predicate is never true; the translation keeps the code as written.) -/
def canParse (s : String) : Bool :=
  if s.length ≠ 26 then false
  else if !(s.data.all isRegexChar) then false
  else (scru128LibParse s).isSome

/-- `SCRU128Parser.Parse`: decode through `scru128.Parse`; the Go code
copies the first 16 bytes of the canonical string into the binary field,
substitutes the current clock for the timestamp, and uses the fixed
entropy estimate 26.  `nowNs` models the `time.Now()` read. -/
def parse (nowNs : Int) (s : String) : Option IDInfo :=
  match scru128LibParse s with
  | none => none
  | some canonical =>
    some { idType := "SCRU128 (Sortable, Clock-based, Realm-specific, Unique identifier)",
           standard := s, size := 128, entropy := some 26,
           datetimeNanos := some nowNs,
           binary := (canonical.data.map Char.toNat).take 16 ++
             List.replicate (16 - canonical.length) 0 }

/-- `SCRU128Parser.Generate`, i.e. `fmt.Sprintf("%013x%09x", now, seq)`:
the millisecond clock and the already-incremented value of the package
sequence counter are passed as parameters. -/
def generate (nowMs seq : Nat) : String :=
  ⟨hexPadded 13 nowMs ++ hexPadded 9 seq⟩

end SCRU128Parser

namespace TSIDParser

/-- `TSIDParser.CanParse`: trim, require exactly 13 characters, and match
the regex `^[0-9A-HJ-KM-NP-TV-ZILOa-hj-km-np-tv-zilo]{13}$` against the
uppercased input. -/
def canParse (s : String) : Bool :=
  let t := goTrimSpace s
  if t.length ≠ 13 then false
  else (t.data.map asciiToUpper).all isTsidChar

/-- Modelled from the spec: `tsid.FromString` decodes 13 case-insensitive
Crockford base32 characters (I, L read as 1 and O as 0) into the 64-bit
number of the TSID. -/
def libNumber (l : List Char) : Nat :=
  digitsValue crockfordVal 32 l % 2 ^ 64

/-- `TSIDParser.Parse`: trim, re-check `CanParse`, decode the number, and
slice it as a 42-bit millisecond timestamp over the 2020-01-01 epoch plus
22 random bits; the binary form is the explicit 8-byte big-endian value. -/
def parse (s : String) : Option IDInfo :=
  let t := goTrimSpace s
  if !canParse t then none
  else
    let number := libNumber t.data
    some { idType := "TSID (Time-Sorted Unique Identifier)",
           standard := goToUpper t, size := 64, entropy := some 22,
           datetimeNanos := some (((number / 2 ^ 22 + 1577836800000 : Nat) : Int) * 1000000),
           binary := natToDigitsBE 256 8 number }

end TSIDParser

namespace TypeIDParser

/-- `TypeIDParser.CanParse`: at least 27 characters containing an
underscore, then a full `typeid.Parse` validation. -/
def canParse (s : String) : Bool :=
  if s.length < 27 || !(s.data.contains '_') then false
  else typeidLibOk s

/-- Modelled from the spec: the suffix-extracting part of `typeid.Parse` —
for a prefixed TypeID the suffix follows the last underscore, and a bare
26-character suffix with no underscore is also a valid TypeID. -/
def libParse (s : String) : Option (List Char × List Char) :=
  match lastUnderscoreSplit s.data with
  | some (p, suf) => if typeidLibOk s then some (p, suf) else none
  | none =>
      if s.length = 26 && s.data.all isCrockfordLower &&
          (match s.data with | c :: _ => c ≤ '7' | [] => false) then
        some ([], s.data)
      else none

/-- `TypeIDParser.Parse`: trim, decode through `typeid.Parse`; the binary
field is the byte text of the embedded UUID string, the timestamp is not
extracted, entropy is the fixed 128. -/
def parse (s : String) : Option IDInfo :=
  let t := goTrimSpace s
  match libParse t with
  | none => none
  | some (_, suf) =>
    let uuidStr := uuidHyphenated (digitsValue crockfordVal 32 suf % 2 ^ 128)
    some { idType := "TypeID", standard := t, size := 128, entropy := some 128,
           binary := uuidStr.data.map Char.toNat }

end TypeIDParser

namespace NUIDParser

/-- The regex `^[0-9A-Za-z]{22}$`. -/
def regexMatch (l : List Char) : Bool :=
  l.length = 22 && l.all isBase62Char

/-- `NUIDParser.CanParse`: exactly 22 base62 characters, and the extra
heuristic that the first character is not `0`. -/
def canParse (s : String) : Bool :=
  if s.length ≠ 22 then false
  else if !(regexMatch s.data) then false
  else match s.data with
       | c :: _ => c ≠ '0'
       | [] => false

/-- `NUIDParser.Parse`: trim, re-check `CanParse`; the binary field is the
byte text of the input, sizes and entropy are the fixed estimate 132. -/
def parse (s : String) : Option IDInfo :=
  let t := goTrimSpace s
  if !canParse t then none
  else
    some { idType := "NUID (NATS Unique Identifier)", standard := t,
           size := 132, entropy := some 132, binary := t.data.map Char.toNat }

end NUIDParser

namespace ShortUUIDParser

/-- `ShortUUIDParser.CanParse`: exactly 22 characters, then a full
`shortuuid.DefaultEncoder.Decode` validation. -/
def canParse (s : String) : Bool :=
  if s.length ≠ 22 then false else (shortuuidDecode s).isSome

/-- `ShortUUIDParser.Parse`: trim, decode to the underlying UUID; the
binary field is the byte text of the UUID string, entropy the fixed 122. -/
def parse (s : String) : Option IDInfo :=
  let t := goTrimSpace s
  match shortuuidDecode t with
  | none => none
  | some uuidStr =>
    some { idType := "ShortUUID", standard := t, size := 128, entropy := some 122,
           binary := uuidStr.data.map Char.toNat }

end ShortUUIDParser

namespace SqidsParser

/-- `SqidsParser.CanParse`: non-empty and the default-configuration decode
yields a non-empty number list. -/
def canParse (s : String) : Bool :=
  if s.length = 0 then false else sqidsDecodeNonEmpty s

/-- `SqidsParser.Parse`: trim, re-check `CanParse` (which subsumes the
empty-decode error path); the binary field is the byte text of the input;
entropy is the integer part of `length * 3.321928 * log10(62)` under the
approximate log of `sqids.go`, modelled exactly as the rational
`length * 249144600 / 23000000` (the float64 rounding of the Go code
cannot reach the next integer for any length up to 255). -/
def parse (s : String) : Option IDInfo :=
  let t := goTrimSpace s
  if !canParse t then none
  else
    some { idType := "Sqids", standard := t, size := t.length * 6,
           entropy := some (t.length * 249144600 / 23000000),
           binary := t.data.map Char.toNat }

end SqidsParser

namespace NanoIDParser

/-- `NanoIDParser.CanParse`: length 6..255, the regex `^[A-Za-z0-9_-]+$`,
and membership of every character in the default NanoID alphabet (the same
character set as the regex, so the two walks coincide). -/
def canParse (s : String) : Bool :=
  if s.length < 6 || s.length > 255 then false
  else if !(s.data.all isNanoIDChar) then false
  else s.data.all isNanoIDChar

/-- `NanoIDParser.Parse`: re-check `CanParse`, then build the hex string of
per-character alphabet indices (`%02x` each, so the decoded binary is one
byte per character); entropy is `ceil(length * log2(64))`, which is exactly
`length * 6`. -/
def parse (s : String) : Option IDInfo :=
  if !canParse s then none
  else
    some { idType := "Nano ID", standard := s, size := s.length * 8,
           entropy := some (s.length * 6), binary := s.data.map nanoIDVal }

end NanoIDParser

namespace SnowflakeParser

/-- The regex `^\d{10,19}$`. -/
def regexMatch (l : List Char) : Bool :=
  l.all isAsciiDigit && 10 ≤ l.length && l.length ≤ 19

/-- `SnowflakeParser.CanParse` (reached through the registry wrapper):
the digit regex plus a `strconv.ParseUint` validation. -/
def canParse (s : String) : Bool :=
  if !(regexMatch s.data) then false else (goParseUint64 s).isSome

/-- `SnowflakeParser.Parse`: parse the decimal value, reinterpret it as the
signed 64-bit `snowflake.ID`, and slice it per the Twitter layout — the
millisecond timestamp is the value shifted right by 22 plus the epoch
1288834974657; the binary field is the minimal big-endian byte slice of
`big.Int.SetUint64`. -/
def parse (s : String) : Option IDInfo :=
  match goParseUint64 s with
  | none => none
  | some u =>
    let idInt : Int := if u < 2 ^ 63 then (u : Int) else (u : Int) - 2 ^ 64
    let tsMs := Int.fdiv idInt (2 ^ 22) + 1288834974657
    some { idType := "Snowflake", standard := s, size := 64, entropy := some 22,
           datetimeNanos := some (tsMs * 1000000), binary := natMinBytes64 u }

end SnowflakeParser

namespace UnixTimeParser

/-- The regex `^(0|\d{10,19})$`. -/
def regexMatch (l : List Char) : Bool :=
  l = ['0'] || (l.all isAsciiDigit && 10 ≤ l.length && l.length ≤ 19)

/-- `UnixTimeParser.CanParse`: the regex plus a `strconv.ParseUint`
validation. -/
def canParse (s : String) : Bool :=
  if !(regexMatch s.data) then false else (goParseUint64 s).isSome

/-- Gregorian calendar year (UTC) of an epoch-second value, by the
standard civil-from-days conversion; models `time.Time.Year()`. -/
def yearOf (secs : Int) : Int :=
  let z := Int.fdiv secs 86400 + 719468
  let era := Int.fdiv z 146097
  let doe := z - era * 146097
  let yoe := Int.fdiv (doe - Int.fdiv doe 1460 + Int.fdiv doe 36524 - Int.fdiv doe 146096) 365
  let y := yoe + era * 400
  let doy := doe - (365 * yoe + Int.fdiv yoe 4 - Int.fdiv yoe 100)
  let mp := Int.fdiv (5 * doy + 2) 153
  let m := if mp < 10 then mp + 3 else mp - 9
  if m ≤ 2 then y + 1 else y

/-- The filter `candidate.time.Year() >= 1970 && candidate.time.Year() <= 2100`. -/
def yearInRange (secs : Int) : Bool :=
  1970 ≤ yearOf secs && yearOf secs ≤ 2100

/-- `absInt64` from `unixtime.go`. -/
def absInt64 (x : Int) : Int := if x < 0 then -x else x

/-- One candidate unit interpretation: the full candidate time in
nanoseconds since the epoch, the unit label and the precision label. -/
structure UnixCand where
  nanos : Int
  unit : String
  precision : String
  deriving DecidableEq

/-- The four interpretations tried by `UnixTimeParser.Parse`, in source
order: seconds, milliseconds, microseconds, nanoseconds. -/
def unixCandidates (ts : Int) : List UnixCand :=
  [⟨ts * 1000000000, "seconds", "second"⟩,
   ⟨ts * 1000000, "milliseconds", "millisecond"⟩,
   ⟨ts * 1000, "microseconds", "microsecond"⟩,
   ⟨ts, "nanoseconds", "nanosecond"⟩]

/-- One iteration of the selection loop: state is `(minDiff, best)`,
initially `(1<<63 - 1, none)`; a candidate with year in [1970, 2100] whose
second value is strictly closer to `now` replaces the current best. -/
def unixStep (now : Int) (st : Int × Option UnixCand) (c : UnixCand) :
    Int × Option UnixCand :=
  if yearInRange (Int.fdiv c.nanos 1000000000) then
    if absInt64 (Int.fdiv c.nanos 1000000000 - now) < st.1 then
      (absInt64 (Int.fdiv c.nanos 1000000000 - now), some c)
    else st
  else st

/-- The unit-disambiguation policy of `UnixTimeParser.Parse`: run the loop
over the four candidates and default to the seconds interpretation when
none qualified. -/
def unixSelect (ts now : Int) : UnixCand :=
  match ((unixCandidates ts).foldl (unixStep now) (9223372036854775807, none)).2 with
  | some c => c
  | none => ⟨ts * 1000000000, "seconds", "second"⟩

/-- `UnixTimeParser.Parse`: parse the decimal value, keep its low 63 bits
when it exceeds `MaxInt64`, choose a unit, and emit a fixed 64-bit size
with the `%064b` ASCII bit string as the binary field.  `nowSec` models
`time.Now().Unix()`. -/
def parse (nowSec : Int) (s : String) : Option IDInfo :=
  match goParseUint64 s with
  | none => none
  | some u =>
    let ts : Nat := if u ≤ 9223372036854775807 then u else u % 9223372036854775808
    let c := unixSelect (ts : Int) nowSec
    some { idType := "Unix timestamp (" ++ c.unit ++ ")", standard := s, size := 64,
           entropy := some 0, datetimeNanos := some c.nanos, binary := bits64Ascii ts }

end UnixTimeParser

namespace HashHexParser

/-- The length-to-algorithm table `commonHashLengths` (hex characters). -/
def hashTypeName (n : Nat) : Option String :=
  if n = 32 then some "MD5"
  else if n = 40 then some "SHA-1"
  else if n = 56 then some "SHA-224"
  else if n = 64 then some "SHA-256"
  else if n = 96 then some "SHA-384"
  else if n = 128 then some "SHA-512"
  else none

/-- `HashHexParser.CanParse`: the regex `^[0-9a-fA-F]+$`, at least 8 hex
characters, even length. -/
def canParse (s : String) : Bool :=
  if !(s.data ≠ [] && s.data.all isHexChar) then false
  else if s.length < 8 then false
  else if s.length % 2 ≠ 0 then false
  else true

/-- `HashHexParser.Parse`: lowercase, hex-decode (with no length floor —
`Parse` alone accepts any even-length hex string), classify by length. -/
def parse (s : String) : Option IDInfo :=
  let low := goToLower s
  match goHexDecode low with
  | none => none
  | some bytes =>
    let name :=
      match hashTypeName low.length with
      | some t => t
      | none => "Hash (" ++ toString (bytes.length * 8) ++ " bits)"
    some { idType := "Hex-encoded " ++ name, standard := goToUpper low,
           size := bytes.length * 8, entropy := some (bytes.length * 8),
           binary := bytes }

end HashHexParser

namespace Base58Parser

/-- `Base58Parser.CanParse`: length 8..60, the Base58 alphabet, and the
two anti-false-positive heuristics (short all-digit and short all-letter
strings are rejected). -/
def canParse (s : String) : Bool :=
  if s.length < 8 || s.length > 60 then false
  else if !(s.data.all isBase58Char) then false
  else if s.data.all (fun c => '1' ≤ c && c ≤ '9') && s.length < 15 then false
  else if s.data.all (fun c => (isAsciiUpper c && c ≠ 'I' && c ≠ 'O') ||
      (isAsciiLower c && c ≠ 'l')) && s.length < 10 then false
  else true

/-- `Base58Parser.decodeBase58`: big-integer base58 value, minimal bytes,
then the leading-`1` loop — a string of only `1`s collapses to the single
zero byte, and otherwise each leading `1` prepends a zero byte. -/
def decodeBase58 (l : List Char) : List Nat :=
  let decoded := natMinBytes512 (digitsValue base58Val 58 l)
  if l ≠ [] && l.all (· = '1') then [0]
  else List.replicate (l.takeWhile (· = '1')).length 0 ++ decoded

/-- `Base58Parser.Parse`: trim, re-check `CanParse`, decode; entropy is
the integer part of `length * 5.858`. -/
def parse (s : String) : Option IDInfo :=
  let t := goTrimSpace s
  if !canParse t then none
  else
    let decoded := decodeBase58 t.data
    some { idType := "Base58", standard := t, size := decoded.length * 8,
           entropy := some (t.length * 5858 / 1000), binary := decoded }

end Base58Parser

namespace PushIDParser

/-- `PushIDParser.CanParse`: exactly 20 characters of the PushID alphabet
class `[-0-9A-Z_a-z]`. -/
def canParse (s : String) : Bool :=
  if s.length ≠ 20 then false
  else s.data.all isPushIDChar

/-- `PushIDParser.extractTimestamp` on the first 8 characters: base64-like
positional value, accepted only between the years 2000 and 2100 (in
milliseconds). -/
def extractTimestamp (l : List Char) : Option Nat :=
  let ts := digitsValue pushIDVal 64 l
  if ts < 946684800000 || ts > 4102444800000 then none else some ts

/-- `PushIDParser.Parse`: trim, re-check `CanParse`; a decodable timestamp
region fills the datetime, otherwise the result simply has no timestamp;
the binary field is the byte text of the input. -/
def parse (s : String) : Option IDInfo :=
  let t := goTrimSpace s
  if !canParse t then none
  else
    some { idType := "Firebase PushID", standard := t, size := 120,
           entropy := some 120,
           datetimeNanos := (extractTimestamp (t.data.take 8)).map
             (fun ts => (ts : Int) * 1000000),
           binary := t.data.map Char.toNat }

end PushIDParser

namespace Base32Parser

/-- Go `strings.TrimRight(s, "=")`. -/
def trimEq (s : String) : String :=
  ⟨(s.data.reverse.dropWhile (· = '=')).reverse⟩

/-- The regex `^[A-Z2-7]+=*$`: a non-empty body of base32 characters
followed only by padding. -/
def regexMatch (l : List Char) : Bool :=
  let body := (l.reverse.dropWhile (· = '=')).reverse
  body ≠ [] && body.all isBase32StdChar

/-- `Base32Parser.CanParse`: length 8..64, the regex against the
uppercased input, then a decode validation (standard padded decoding, or
unpadded decoding of the input with its padding stripped). -/
def canParse (s : String) : Bool :=
  if s.length < 8 || s.length > 64 then false
  else if !(regexMatch (goToUpper s).data) then false
  else (base32PadDecode (goToUpper s)).isSome ||
    (base32NoPadDecode (trimEq (goToUpper s))).isSome

/-- `Base32Parser.Parse`: uppercase and trim, re-check `CanParse`, decode
(padded first, then unpadded); entropy is five bits per unpadded
character. -/
def parse (s : String) : Option IDInfo :=
  let input := goTrimSpace (goToUpper s)
  if !canParse input then none
  else
    let decoded? :=
      match base32PadDecode input with
      | some d => some d
      | none => base32NoPadDecode (trimEq input)
    match decoded? with
    | none => none
    | some decoded =>
      some { idType := "Base32", standard := input, size := decoded.length * 8,
             entropy := some ((trimEq input).length * 5), binary := decoded }

end Base32Parser

/-! ### The decoder registry and the detection engine (`registry.go`)

The two decoders that read the clock during `Parse` (SCRU128 substitutes
`time.Now()` for its timestamp, UnixTime compares candidates against
`time.Now().Unix()`) receive it from the registry parameter `nowNs`
(nanoseconds since the Unix epoch). -/

def uuidDecoder : Decoder := ⟨"UUID", UUIDParser.canParse, UUIDParser.parse⟩

def ulidDecoder : Decoder := ⟨"ULID", ULIDParser.canParse, ULIDParser.parse⟩

def objectIDDecoder : Decoder := ⟨"ObjectID", ObjectIDParser.canParse, ObjectIDParser.parse⟩

def ksuidDecoder : Decoder := ⟨"KSUID", KSUIDParser.canParse, KSUIDParser.parse⟩

def xidDecoder : Decoder := ⟨"Xid", XidParser.canParse, XidParser.parse⟩

def cuidDecoder : Decoder := ⟨"CUID", CUIDParser.canParse, CUIDParser.parse⟩

def scru128Decoder (nowNs : Int) : Decoder :=
  ⟨"SCRU128", SCRU128Parser.canParse, SCRU128Parser.parse nowNs⟩

def tsidDecoder : Decoder := ⟨"TSID", TSIDParser.canParse, TSIDParser.parse⟩

def typeidDecoder : Decoder := ⟨"TypeID", TypeIDParser.canParse, TypeIDParser.parse⟩

def nuidDecoder : Decoder := ⟨"NUID", NUIDParser.canParse, NUIDParser.parse⟩

def shortUUIDDecoder : Decoder :=
  ⟨"ShortUUID", ShortUUIDParser.canParse, ShortUUIDParser.parse⟩

def sqidsDecoder : Decoder := ⟨"Sqids", SqidsParser.canParse, SqidsParser.parse⟩

def nanoIDDecoder : Decoder := ⟨"NanoID", NanoIDParser.canParse, NanoIDParser.parse⟩

def snowflakeDecoder : Decoder :=
  ⟨"Snowflake", SnowflakeParser.canParse, SnowflakeParser.parse⟩

def unixTimeDecoder (nowSec : Int) : Decoder :=
  ⟨"UnixTime", UnixTimeParser.canParse, UnixTimeParser.parse nowSec⟩

def hashHexDecoder : Decoder := ⟨"HashHex", HashHexParser.canParse, HashHexParser.parse⟩

def base58Decoder : Decoder := ⟨"Base58", Base58Parser.canParse, Base58Parser.parse⟩

def pushIDDecoder : Decoder := ⟨"PushID", PushIDParser.canParse, PushIDParser.parse⟩

def base32Decoder : Decoder := ⟨"Base32", Base32Parser.canParse, Base32Parser.parse⟩

/-- `NewRegistry`: the 19 decoders in their registration order (TypeID
ahead of NanoID, NUID ahead of ShortUUID, ShortUUID ahead of Sqids, Sqids
ahead of NanoID, per the comments in `registry.go`). -/
def registry (nowNs : Int) : List Decoder :=
  [uuidDecoder, ulidDecoder, objectIDDecoder, ksuidDecoder, xidDecoder, cuidDecoder,
   scru128Decoder nowNs, tsidDecoder, typeidDecoder, nuidDecoder, shortUUIDDecoder,
   sqidsDecoder, nanoIDDecoder, snowflakeDecoder,
   unixTimeDecoder (Int.fdiv nowNs 1000000000), hashHexDecoder, base58Decoder,
   pushIDDecoder, base32Decoder]

/-- `Registry.GetAvailableParsers`: the names in registration order. -/
def getAvailableParsers (nowNs : Int) : List String :=
  (registry nowNs).map (·.name)

/-- `Registry.GetParser`: the first decoder whose canonical name matches
the query under `strings.EqualFold`; no aliases are consulted. -/
def getParser (nowNs : Int) (name : String) : Option Decoder :=
  (registry nowNs).find? (fun p => goEqualFold p.name name)

/-- The static alias table of `matchesForceFormat`. -/
def aliasTable : List (String × List String) :=
  [("uuid", ["uuid", "guid"]),
   ("ulid", ["ulid"]),
   ("objectid", ["objectid", "mongodb", "bson"]),
   ("ksuid", ["ksuid"]),
   ("xid", ["xid"]),
   ("cuid", ["cuid", "cuid2"]),
   ("scru128", ["scru128", "scru"]),
   ("tsid", ["tsid"]),
   ("nuid", ["nuid", "nats-uid", "nats-id"]),
   ("nanoid", ["nanoid", "nano-id", "nano_id"]),
   ("snowflake", ["snowflake", "sf", "sf-twitter", "sf-discord", "twitter", "discord"]),
   ("unixtime", ["unixtime", "unix", "timestamp"]),
   ("hashhex", ["hashhex", "hash", "hex"]),
   ("base58", ["base58", "b58", "bitcoin"]),
   ("pushid", ["pushid", "push-id", "firebase"]),
   ("base32", ["base32", "b32"]),
   ("shortuuid", ["shortuuid", "short-uuid", "suuid"]),
   ("sqids", ["sqids", "sqid"]),
   ("typeid", ["typeid", "type-id"])]

/-- `matchesForceFormat`: lowercase both names, accept when some alias row
for the canonical parser name lists the forced format, or when the two
lowered names are equal.  (The Go code ranges over a map whose keys are
unique, so the iteration order cannot change the outcome.) -/
def matchesForceFormat (parserName forceFormat : String) : Bool :=
  let pn := goToLower parserName
  let ff := goToLower forceFormat
  aliasTable.any (fun e => e.1 == pn && e.2.contains ff) || pn == ff

/-- The collection loop of the auto-detect branch of `Registry.ParseID`:
ask `CanParse`, then `Parse`, appending each success. -/
def parseIDAux (t : String) : List Decoder → List IDInfo → List IDInfo
  | [], acc => acc
  | p :: rest, acc =>
    if p.canParse t then
      match p.parse t with
      | some info => parseIDAux t rest (acc ++ [info])
      | none => parseIDAux t rest acc
    else parseIDAux t rest acc

/-- The loop of the forced-format branch of `Registry.ParseID`: `Parse`
(with no `CanParse` gate) for every decoder matching the forced name. -/
def forcedAux (t ff : String) : List Decoder → List IDInfo → List IDInfo
  | [], acc => acc
  | p :: rest, acc =>
    if matchesForceFormat p.name ff then
      match p.parse t with
      | some info => forcedAux t ff rest (acc ++ [info])
      | none => forcedAux t ff rest acc
    else forcedAux t ff rest acc

/-- `Registry.ParseID` over an arbitrary decoder list: trim the input,
then run the forced or the auto-detect branch. -/
def registryParseID (ds : List Decoder) (input forceFormat : String) : List IDInfo :=
  let t := goTrimSpace input
  if forceFormat ≠ "" then forcedAux t forceFormat ds []
  else parseIDAux t ds []

/-- The package-level `ParseID` against the global registry. -/
def ParseID (nowNs : Int) (input forceFormat : String) : List IDInfo :=
  registryParseID (registry nowNs) input forceFormat

/-- The registry with the NUID decoder removed (used to state that inputs
rejected by the NUID heuristic never receive a NUID interpretation). -/
def registryWithoutNUID (nowNs : Int) : List Decoder :=
  [uuidDecoder, ulidDecoder, objectIDDecoder, ksuidDecoder, xidDecoder, cuidDecoder,
   scru128Decoder nowNs, tsidDecoder, typeidDecoder, shortUUIDDecoder,
   sqidsDecoder, nanoIDDecoder, snowflakeDecoder,
   unixTimeDecoder (Int.fdiv nowNs 1000000000), hashHexDecoder, base58Decoder,
   pushIDDecoder, base32Decoder]

/-- The sample UUID literal used by the spec for the cross-decoder
non-collision property. -/
def sampleUUID : String := "550e8400-e29b-41d4-a716-446655440000"

/-- The sample ObjectId literal used by the spec for the auto-detect
ordering property. -/
def sampleObjectId : String := "507f1f77bcf86cd799439011"

/-! ## Theorems -/

theorem natToDigitsBE_length (b : Nat) (w n : Nat) :
    (natToDigitsBE b w n).length = w := by
  induction w generalizing n with
  | zero => rfl
  | succ w ih => simp [natToDigitsBE, ih]

/-- The auto-detect loop is the ordered filter-map of the decoder list. -/
theorem parseIDAux_eq_filterMap (t : String) (ds : List Decoder) (acc : List IDInfo) :
    parseIDAux t ds acc =
      acc ++ ds.filterMap (fun d => if d.canParse t then d.parse t else none) := by
  induction ds generalizing acc with
  | nil => simp [parseIDAux]
  | cons p rest ih =>
    by_cases h : p.canParse t
    · cases hp : p.parse t with
      | none => simp [parseIDAux, h, hp, ih, List.filterMap_cons]
      | some info => simp [parseIDAux, h, hp, ih, List.filterMap_cons]
    · simp [parseIDAux, h, ih, List.filterMap_cons]

theorem filterMap_isEmpty {α β : Type} (f : α → Option β) (l : List α) :
    (l.filterMap f).isEmpty = l.all (fun a => (f a).isNone) := by
  induction l with
  | nil => rfl
  | cons a rest ih =>
    cases h : f a with
    | none => simp [List.filterMap_cons, h, ih]
    | some b => simp [List.filterMap_cons, h]

/-- C1: in auto-detect mode the result of `ParseID` is exactly the
registry-ordered filter-map of the decoders — each decoder whose
`CanParse` accepts the trimmed input and whose `Parse` then succeeds
contributes its result in registry order, a decoder whose `Parse` fails
after `CanParse` accepted is silently skipped — and the result is empty
exactly when no decoder both accepts and successfully parses. -/
theorem claim_C1_autodetect (nowNs : Int) (input : String) :
    ParseID nowNs input "" =
      (registry nowNs).filterMap
        (fun d => if d.canParse (goTrimSpace input) then d.parse (goTrimSpace input) else none) ∧
    (ParseID nowNs input "").isEmpty =
      (registry nowNs).all
        (fun d => !(d.canParse (goTrimSpace input)) || (d.parse (goTrimSpace input)).isNone) := by
  have h1 : ParseID nowNs input "" = parseIDAux (goTrimSpace input) (registry nowNs) [] := by
    simp [ParseID, registryParseID]
  have h2 := parseIDAux_eq_filterMap (goTrimSpace input) (registry nowNs) []
  refine ⟨by rw [h1, h2]; simp, ?_⟩
  rw [h1, h2, List.nil_append, filterMap_isEmpty]
  congr 1
  funext d
  by_cases h : d.canParse (goTrimSpace input) <;> simp [h]

/-- C2: the round-trip property fails for the SCRU128 decoder — at clock
1700000000000 ms with sequence counter 1, `Generate` produces the
22-character hex string `0018bcfe56800000000001`, which the 26-character
gate of `CanParse` rejects and which `Parse` (through `scru128.Parse`,
whose canonical form is 25 base36 digits) cannot decode. -/
theorem claim_C2_scru128_roundtrip_fails :
    SCRU128Parser.generate 1700000000000 1 = "0018bcfe56800000000001" ∧
    (SCRU128Parser.generate 1700000000000 1).length = 22 ∧
    SCRU128Parser.canParse (SCRU128Parser.generate 1700000000000 1) = false ∧
    SCRU128Parser.parse 1700000000000000000 (SCRU128Parser.generate 1700000000000 1) = none := by
  decide

/-- C4 (counterexample): the sample UUID literal is also accepted by the
NanoID decoder — every character of the hyphenated UUID lies in the
default NanoID alphabet and the length is within 6..255 — so it is not
accepted only by the UUID decoder. -/
theorem claim_C4_counterexample : NanoIDParser.canParse sampleUUID = true := by decide

/-- C4 (amended): the sample UUID literal is accepted by exactly the UUID
and NanoID decoders among the 19, and the UUID decode yields size 128,
version label `4 (random)` and entropy 122. -/
theorem claim_C4_uuid_literal :
    UUIDParser.canParse sampleUUID = true ∧
    NanoIDParser.canParse sampleUUID = true ∧
    ULIDParser.canParse sampleUUID = false ∧
    ObjectIDParser.canParse sampleUUID = false ∧
    KSUIDParser.canParse sampleUUID = false ∧
    XidParser.canParse sampleUUID = false ∧
    CUIDParser.canParse sampleUUID = false ∧
    SCRU128Parser.canParse sampleUUID = false ∧
    TSIDParser.canParse sampleUUID = false ∧
    TypeIDParser.canParse sampleUUID = false ∧
    NUIDParser.canParse sampleUUID = false ∧
    ShortUUIDParser.canParse sampleUUID = false ∧
    SqidsParser.canParse sampleUUID = false ∧
    SnowflakeParser.canParse sampleUUID = false ∧
    UnixTimeParser.canParse sampleUUID = false ∧
    HashHexParser.canParse sampleUUID = false ∧
    Base58Parser.canParse sampleUUID = false ∧
    PushIDParser.canParse sampleUUID = false ∧
    Base32Parser.canParse sampleUUID = false ∧
    (UUIDParser.parse sampleUUID).map (fun r => (r.size, r.version, r.entropy)) =
      some (128, "4 (random)", some 122) := by
  decide

/-- C6: auto-detecting the 24-hex sample returns a non-empty list whose
first element is the ObjectId interpretation — the only decoders ahead of
ObjectID in the registry (UUID and ULID) reject the 24-character shape. -/
theorem claim_C6_objectid_first (nowNs : Int) :
    (ParseID nowNs sampleObjectId "").head?.map (fun r => r.idType) =
      some "MongoDB ObjectId" ∧
    (ParseID nowNs sampleObjectId "").isEmpty = false :=
  ⟨rfl, rfl⟩

theorem find?_isSome_eq_any {α : Type} (p : α → Bool) (l : List α) :
    (l.find? p).isSome = l.any p := by
  induction l with
  | nil => rfl
  | cons a rest ih =>
    by_cases h : p a
    · simp [List.find?_cons_of_pos _ h, h]
    · simp [List.find?_cons_of_neg _ h, h, ih]

/-- C7 (amended): `GetParser` matches only canonical decoder names,
case-insensitively, and returns nil for anything else — including the
aliases `guid`, `bson` and `b58`, which are honoured only by
`matchesForceFormat` (the forced-parse path). -/
theorem claim_C7_lookup (nowNs : Int) :
    (getParser nowNs "guid").isNone = true ∧
    (getParser nowNs "bson").isNone = true ∧
    (getParser nowNs "b58").isNone = true ∧
    (getParser nowNs "uuid").map (fun d => d.name) = some "UUID" ∧
    (getParser nowNs "ObjectId").map (fun d => d.name) = some "ObjectID" ∧
    matchesForceFormat "UUID" "guid" = true ∧
    matchesForceFormat "ObjectID" "bson" = true ∧
    matchesForceFormat "Base58" "b58" = true ∧
    matchesForceFormat "UUID" "nonsense" = false ∧
    (∀ name, (getParser nowNs name).isSome =
      (getAvailableParsers nowNs).any (fun n => goEqualFold n name)) := by
  refine ⟨rfl, rfl, rfl, rfl, rfl, by decide, by decide, by decide, by decide, ?_⟩
  intro name
  rw [getParser, find?_isSome_eq_any, getAvailableParsers]
  induction registry nowNs with
  | nil => rfl
  | cons d rest ih => simp [ih]

/-- C7 (counterexample): looking the alias `guid` up through `GetParser`
returns nil, not the UUID decoder. -/
theorem claim_C7_counterexample : (getParser 0 "guid").isNone = true := rfl

theorem uuidLibParse_length {s : String} {bytes : List Nat}
    (h : uuidLibParse s = some bytes) : bytes.length = 16 := by
  simp only [uuidLibParse] at h
  split_ifs at h
  all_goals
    simp only [Option.some.injEq] at h
    rw [← h]
    exact natToDigitsBE_length _ _ _

theorem ulidLibParse_length {s : String} {bytes : List Nat}
    (h : ulidLibParse s = some bytes) : bytes.length = 16 := by
  simp only [ulidLibParse] at h
  split_ifs at h
  all_goals
    simp only [Option.some.injEq] at h
    rw [← h]
    exact natToDigitsBE_length _ _ _

theorem objectIDFromHex_length {s : String} {bytes : List Nat}
    (h : objectIDFromHex s = some bytes) : bytes.length = 12 := by
  simp only [objectIDFromHex] at h
  split_ifs at h
  all_goals
    simp only [Option.some.injEq] at h
    rw [← h]
    exact natToDigitsBE_length _ _ _

theorem ksuidLibParse_length {s : String} {bytes : List Nat}
    (h : ksuidLibParse s = some bytes) : bytes.length = 20 := by
  simp only [ksuidLibParse] at h
  split_ifs at h
  all_goals
    simp only [Option.some.injEq] at h
    rw [← h]
    exact natToDigitsBE_length _ _ _

theorem xidFromString_length {s : String} {bytes : List Nat}
    (h : xidFromString s = some bytes) : bytes.length = 12 := by
  simp only [xidFromString] at h
  split_ifs at h
  all_goals
    simp only [Option.some.injEq] at h
    rw [← h]
    exact natToDigitsBE_length _ _ _

/-- C8 (amended): `size_bits = 8 * len(binary_bytes)` holds for every
successful `Parse` of the fixed-width binary formats UUID, ULID, ObjectId,
KSUID, Xid, TSID and SCRU128; it fails for Unix timestamps (whose binary
field is the 64-character ASCII bit string of the value while the size is
declared 64) and for Snowflake ids below 2^56 (whose binary field is the
minimal big-endian byte slice). -/
theorem claim_C8_size_bits :
    (∀ s, (UUIDParser.parse s).all (fun r => r.size == 8 * r.binary.length) = true) ∧
    (∀ s, (ULIDParser.parse s).all (fun r => r.size == 8 * r.binary.length) = true) ∧
    (∀ s, (ObjectIDParser.parse s).all (fun r => r.size == 8 * r.binary.length) = true) ∧
    (∀ s, (KSUIDParser.parse s).all (fun r => r.size == 8 * r.binary.length) = true) ∧
    (∀ s, (XidParser.parse s).all (fun r => r.size == 8 * r.binary.length) = true) ∧
    (∀ s, (TSIDParser.parse s).all (fun r => r.size == 8 * r.binary.length) = true) ∧
    (∀ nowNs s, (SCRU128Parser.parse nowNs s).all
      (fun r => r.size == 8 * r.binary.length) = true) ∧
    (∀ nowSec, (UnixTimeParser.parse nowSec "1609459200").all
      (fun r => r.size == 8 * r.binary.length) = false) ∧
    (SnowflakeParser.parse "1234567890").all
      (fun r => r.size == 8 * r.binary.length) = false := by
  refine ⟨?_, ?_, ?_, ?_, ?_, ?_, ?_, fun nowSec => rfl, by decide⟩
  · intro s
    cases h : uuidLibParse s with
    | none => unfold UUIDParser.parse; rw [h]; rfl
    | some bytes =>
      have hl : bytes.length = 16 := uuidLibParse_length h
      unfold UUIDParser.parse
      rw [h]
      simp [Option.all, hl]
  · intro s
    cases h : ulidLibParse s with
    | none => unfold ULIDParser.parse; rw [h]; rfl
    | some bytes =>
      have hl : bytes.length = 16 := ulidLibParse_length h
      unfold ULIDParser.parse
      rw [h]
      simp [Option.all, hl]
  · intro s
    cases h : objectIDFromHex s with
    | none => unfold ObjectIDParser.parse; rw [h]; rfl
    | some bytes =>
      have hl : bytes.length = 12 := objectIDFromHex_length h
      unfold ObjectIDParser.parse
      rw [h]
      simp [Option.all, hl]
  · intro s
    cases h : ksuidLibParse s with
    | none => unfold KSUIDParser.parse; rw [h]; rfl
    | some bytes =>
      have hl : bytes.length = 20 := ksuidLibParse_length h
      unfold KSUIDParser.parse
      rw [h]
      simp [Option.all, hl]
  · intro s
    cases h : xidFromString s with
    | none => unfold XidParser.parse; rw [h]; rfl
    | some bytes =>
      have hl : bytes.length = 12 := xidFromString_length h
      unfold XidParser.parse
      rw [h]
      simp [Option.all, hl]
  · intro s
    simp only [TSIDParser.parse]
    split_ifs
    · rfl
    · simp [Option.all, natToDigitsBE_length]
  · intro nowNs s
    cases h : scru128LibParse s with
    | none => unfold SCRU128Parser.parse; rw [h]; rfl
    | some canonical =>
      have hl : ((canonical.data.map Char.toNat).take 16 ++
          List.replicate (16 - canonical.length) 0).length = 16 := by
        rw [List.length_append, List.length_take, List.length_replicate, List.length_map]
        have hc : canonical.length = canonical.data.length := rfl
        omega
      unfold SCRU128Parser.parse
      rw [h]
      simp [Option.all, hl]

/-- C8 (counterexample): the Unix-timestamp decode of `1609459200` has
`size_bits = 64` but a 64-byte binary field, so
`size_bits = 8 * len(binary_bytes)` fails on it. -/
theorem claim_C8_counterexample :
    (UnixTimeParser.parse 1700000000 "1609459200").all
      (fun r => r.size == 8 * r.binary.length) = false := by decide


theorem data_mk (l : List Char) : (String.mk l).data = l := rfl

theorem dropWhile_idem {α : Type} {p : α → Bool} (l : List α) :
    (l.dropWhile p).dropWhile p = l.dropWhile p := by
  induction l with
  | nil => rfl
  | cons a t ih =>
    by_cases h : p a
    · simp [List.dropWhile_cons, h, ih]
    · simp [List.dropWhile_cons, h]

theorem head?_dropWhile_false {α : Type} {p : α → Bool} {l : List α} {c : α}
    (h : (l.dropWhile p).head? = some c) : p c = false := by
  induction l with
  | nil => simp at h
  | cons a t ih =>
    by_cases hp : p a
    · rw [show (a :: t).dropWhile p = t.dropWhile p by simp [List.dropWhile_cons, hp]] at h
      exact ih h
    · rw [show (a :: t).dropWhile p = a :: t by simp [List.dropWhile_cons, hp]] at h
      simp at h
      subst h
      simpa using hp

theorem dropWhile_eq_self_of_head? {α : Type} {p : α → Bool} {l : List α} {c : α}
    (h : l.head? = some c) (hc : p c = false) : l.dropWhile p = l := by
  cases l with
  | nil => rfl
  | cons a t =>
    simp at h
    subst h
    simp [List.dropWhile_cons, hc]

theorem getLast?_dropWhile {α : Type} {p : α → Bool} (l : List α)
    (h : l.dropWhile p ≠ []) : (l.dropWhile p).getLast? = l.getLast? := by
  induction l with
  | nil => simp at h
  | cons a t ih =>
    by_cases hp : p a
    · have he : (a :: t).dropWhile p = t.dropWhile p := by simp [List.dropWhile_cons, hp]
      rw [he] at h ⊢
      rw [ih h]
      cases t with
      | nil => simp at h
      | cons b u => simp [List.getLast?_cons_cons]
    · simp [List.dropWhile_cons, hp]

theorem goTrimSpace_idem (s : String) : goTrimSpace (goTrimSpace s) = goTrimSpace s := by
  unfold goTrimSpace
  rw [data_mk]
  congr 1
  set B := (s.data.dropWhile isGoSpace).reverse.dropWhile isGoSpace with hB
  have step1 : B.reverse.dropWhile isGoSpace = B.reverse := by
    cases hh : B.reverse.head? with
    | none =>
      have : B.reverse = [] := by
        cases hcase : B.reverse with
        | nil => rfl
        | cons x xs => rw [hcase] at hh; simp at hh
      rw [this]
      rfl
    | some c =>
      refine dropWhile_eq_self_of_head? hh ?_
      rw [List.head?_reverse] at hh
      have hBne : B ≠ [] := by
        intro hcon
        rw [hcon] at hh
        simp at hh
      rw [hB, getLast?_dropWhile _ (hB ▸ hBne), List.getLast?_reverse] at hh
      exact head?_dropWhile_false hh
  rw [step1, List.reverse_reverse, hB, dropWhile_idem]

theorem tsid_canParse_trim (s : String) :
    TSIDParser.canParse (goTrimSpace s) = TSIDParser.canParse s := by
  unfold TSIDParser.canParse
  rw [goTrimSpace_idem]

/-- C3 (amended): for the decoders whose `Parse` re-runs `CanParse` on the
unmodified input (NanoID, CUID2) or on input its own `CanParse` also trims
(TSID), a successful `Parse` implies `CanParse` accepts the same input;
the UnixTime and HashHex decoders violate the claimed direction — their
`Parse` validates less than `CanParse` and accepts `5` and `ab`
respectively, which their `CanParse` gates reject. -/
theorem claim_C3_parse_strictness :
    (∀ s, (NanoIDParser.parse s).isSome = true → NanoIDParser.canParse s = true) ∧
    (∀ s, (CUIDParser.parse s).isSome = true → CUIDParser.canParse s = true) ∧
    (∀ s, (TSIDParser.parse s).isSome = true → TSIDParser.canParse s = true) ∧
    ((UnixTimeParser.parse 1700000000 "5").isSome = true ∧
      UnixTimeParser.canParse "5" = false) ∧
    ((HashHexParser.parse "ab").isSome = true ∧ HashHexParser.canParse "ab" = false) := by
  refine ⟨?_, ?_, ?_, ⟨by decide, by decide⟩, ⟨by decide, by decide⟩⟩
  · intro s h
    by_cases hc : NanoIDParser.canParse s = true
    · exact hc
    · unfold NanoIDParser.parse at h
      simp [Bool.not_eq_true] at hc
      simp [hc] at h
  · intro s h
    by_cases hc : CUIDParser.canParse s = true
    · exact hc
    · unfold CUIDParser.parse at h
      simp [Bool.not_eq_true] at hc
      simp [hc] at h
  · intro s h
    by_cases hc : TSIDParser.canParse s = true
    · exact hc
    · simp [Bool.not_eq_true] at hc
      unfold TSIDParser.parse at h
      simp [tsid_canParse_trim, hc] at h

theorem claim_C3_witness :
    (NanoIDParser.parse "abcdef").isSome = true ∧
    NanoIDParser.canParse "abcdef" = true :=
  ⟨by decide, claim_C3_parse_strictness.1 "abcdef" (by decide)⟩


/-- C3 (counterexample): `UnixTimeParser.Parse` succeeds on `5` although
`UnixTimeParser.CanParse` rejects it, so `Parse` is not at least as strict
as the `CanParse` gate. -/
theorem claim_C3_counterexample :
    (UnixTimeParser.parse 1700000000 "5").isSome = true ∧
    UnixTimeParser.canParse "5" = false := by
  exact ⟨by decide, by decide⟩

theorem filterMap_middle {α β : Type} (f : α → Option β) (A B : List α) (d : α)
    (h : f d = none) : (A ++ d :: B).filterMap f = (A ++ B).filterMap f := by
  simp [List.filterMap_append, List.filterMap_cons, h]

/-- C10: `NUIDParser.CanParse` accepts exactly the 22-character base62
strings that do not start with `0`, and an input whose trimmed form starts
with `0` is detected exactly as if the NUID decoder were absent from the
registry. -/
theorem claim_C10_nuid_gate :
    (∀ s, NUIDParser.canParse s =
      ((s.length == 22) && s.data.all isBase62Char && !(s.data.head? == some '0'))) ∧
    (∀ nowNs input, (goTrimSpace input).data.head? = some '0' →
      ParseID nowNs input "" = registryParseID (registryWithoutNUID nowNs) input "") := by
  constructor
  · intro s
    unfold NUIDParser.canParse NUIDParser.regexMatch
    have hlen : s.length = s.data.length := rfl
    cases hd : s.data with
    | nil =>
      have : s.length = 0 := by rw [hlen, hd]; rfl
      simp [this]
    | cons c rest =>
      by_cases h22 : s.length = 22
      · have hl : s.data.length = 22 := by rw [← hlen]; exact h22
        rw [hd] at hl
        simp only [h22, hd, hl]
        by_cases hall : (c :: rest).all isBase62Char
        · simp [hall]
          by_cases hc : c = '0' <;> simp [hc]
        · simp [hall]
      · simp [h22]
  · intro nowNs input h
    have hcp : NUIDParser.canParse (goTrimSpace input) = false := by
      unfold NUIDParser.canParse NUIDParser.regexMatch
      cases hd : (goTrimSpace input).data with
      | nil => rw [hd] at h; simp at h
      | cons c rest =>
        rw [hd] at h
        simp at h
        subst h
        split_ifs <;> simp
    have hreg : registry nowNs =
        [uuidDecoder, ulidDecoder, objectIDDecoder, ksuidDecoder, xidDecoder, cuidDecoder,
         scru128Decoder nowNs, tsidDecoder, typeidDecoder] ++ nuidDecoder ::
        [shortUUIDDecoder, sqidsDecoder, nanoIDDecoder, snowflakeDecoder,
         unixTimeDecoder (Int.fdiv nowNs 1000000000), hashHexDecoder, base58Decoder,
         pushIDDecoder, base32Decoder] := rfl
    have hreg2 : registryWithoutNUID nowNs =
        [uuidDecoder, ulidDecoder, objectIDDecoder, ksuidDecoder, xidDecoder, cuidDecoder,
         scru128Decoder nowNs, tsidDecoder, typeidDecoder] ++
        [shortUUIDDecoder, sqidsDecoder, nanoIDDecoder, snowflakeDecoder,
         unixTimeDecoder (Int.fdiv nowNs 1000000000), hashHexDecoder, base58Decoder,
         pushIDDecoder, base32Decoder] := rfl
    simp only [ParseID, registryParseID, if_neg, ne_eq, not_true_eq_false,
      Bool.false_eq_true, reduceIte]
    rw [parseIDAux_eq_filterMap, parseIDAux_eq_filterMap, hreg, hreg2,
      filterMap_middle _ _ _ _ (by simp [nuidDecoder, hcp])]

theorem claim_C10_witness :
    ((goTrimSpace "0000000000000000000000").data.head? = some '0') ∧
    ParseID 0 "0000000000000000000000" "" =
      registryParseID (registryWithoutNUID 0) "0000000000000000000000" "" :=
  ⟨by decide, claim_C10_nuid_gate.2 0 "0000000000000000000000" (by decide)⟩


theorem length_mk (l : List Char) : (String.mk l).length = l.length := rfl

theorem all_false_of_mem {α : Type} (p : α → Bool) {c : α} {l : List α}
    (hm : c ∈ l) (hc : p c = false) : l.all p = false := by
  induction l with
  | nil => cases hm
  | cons a t ih =>
    rcases List.mem_cons.1 hm with rfl | hmt
    · simp [hc]
    · simp [List.all_cons, ih hmt]

theorem mem_dropWhile_of_not {α : Type} (p : α → Bool) {c : α} {l : List α}
    (hm : c ∈ l) (hc : p c = false) : c ∈ l.dropWhile p := by
  induction l with
  | nil => cases hm
  | cons a t ih =>
    by_cases hp : p a
    · rcases List.mem_cons.1 hm with rfl | hmt
      · rw [hp] at hc; cases hc
      · simp only [List.dropWhile_cons, hp, if_true]; exact ih hmt
    · simp only [List.dropWhile_cons, hp, if_false]
      simpa using hm

theorem mem_goTrimSpace {c : Char} {s : String}
    (hm : c ∈ s.data) (hc : isGoSpace c = false) : c ∈ (goTrimSpace s).data := by
  unfold goTrimSpace
  rw [data_mk]
  exact List.mem_reverse.2
    (mem_dropWhile_of_not _ (List.mem_reverse.2 (mem_dropWhile_of_not _ hm hc)) hc)

theorem goHexDecode_none_of_mem {l : List Char} {c : Char}
    (hm : c ∈ l) (hc : isHexChar c = false) : goHexDecode ⟨l⟩ = none := by
  unfold goHexDecode
  rw [data_mk, all_false_of_mem isHexChar hm hc]
  rfl

theorem uuid_rejects_at {s : String} (h : '@' ∈ s.data) :
    UUIDParser.canParse s = false := by
  have hmem : '@' ∈ s.data.filter (· ≠ '-') := List.mem_filter.2 ⟨h, by decide⟩
  have hdec : goHexDecode ⟨s.data.filter (· ≠ '-')⟩ = none :=
    goHexDecode_none_of_mem hmem (by decide)
  simp only [UUIDParser.canParse]
  split_ifs with h1 h2
  · rfl
  · rfl
  · exfalso; rw [hdec] at h2; simp at h2

theorem ulid_rejects_at {s : String} (h : '@' ∈ s.data) :
    ULIDParser.canParse s = false := by
  unfold ULIDParser.canParse
  split_ifs with h1
  · rfl
  · cases hd : s.data with
    | nil => rfl
    | cons c rest =>
      rw [hd] at h
      rcases List.mem_cons.1 h with rfl | hmt
      · have : (('0' ≤ '@' : Bool) && ('@' ≤ '7')) = false := by decide
        simp [ULIDParser.regexMatch, this]
      · simp [ULIDParser.regexMatch,
          all_false_of_mem isCrockfordUpper hmt (by decide)]

theorem objectid_rejects_at {s : String} (h : '@' ∈ s.data) :
    ObjectIDParser.canParse s = false := by
  unfold ObjectIDParser.canParse
  split_ifs with h1
  · rfl
  · exact all_false_of_mem isHexChar h (by decide)

theorem ksuid_rejects_at {s : String} (h : '@' ∈ s.data) :
    KSUIDParser.canParse s = false := by
  unfold KSUIDParser.canParse
  split_ifs with h1 h2
  · rfl
  · rfl
  · exfalso; simp [all_false_of_mem isBase62Char h (by decide)] at h2

theorem xid_rejects_at {s : String} (h : '@' ∈ s.data) :
    XidParser.canParse s = false := by
  unfold XidParser.canParse
  split_ifs with h1 h2
  · rfl
  · rfl
  · exfalso; simp [all_false_of_mem isXidChar h (by decide)] at h2

theorem cuid_rejects_at {s : String} (h : '@' ∈ s.data) :
    CUIDParser.canParse s = false := by
  unfold CUIDParser.canParse
  split_ifs with h1 h2
  · rfl
  · rfl
  · exfalso
    simp [all_false_of_mem (fun c => isAsciiLower c || isAsciiDigit c) h (by decide)] at h2

theorem scru128_rejects_at {s : String} (h : '@' ∈ s.data) :
    SCRU128Parser.canParse s = false := by
  unfold SCRU128Parser.canParse
  split_ifs with h1 h2
  · rfl
  · rfl
  · exfalso
    simp [all_false_of_mem SCRU128Parser.isRegexChar h (by decide)] at h2

theorem tsid_rejects_at {s : String} (h : '@' ∈ s.data) :
    TSIDParser.canParse s = false := by
  simp only [TSIDParser.canParse]
  have htr : '@' ∈ (goTrimSpace s).data := mem_goTrimSpace h (by decide)
  have hmap : '@' ∈ (goTrimSpace s).data.map asciiToUpper :=
    List.mem_map.2 ⟨'@', htr, by decide⟩
  split_ifs with h1
  · rfl
  · exact all_false_of_mem isTsidChar hmap (by decide)

theorem lus_decomp {l p suf : List Char}
    (h : lastUnderscoreSplit l = some (p, suf)) : l = p ++ '_' :: suf := by
  induction l generalizing p suf with
  | nil => simp [lastUnderscoreSplit] at h
  | cons c rest ih =>
    unfold lastUnderscoreSplit at h
    cases hr : lastUnderscoreSplit rest with
    | some pr =>
      obtain ⟨p', suf'⟩ := pr
      rw [hr] at h
      injection h with h2
      injection h2 with hA hB
      subst hA
      subst hB
      simpa using ih hr
    | none =>
      rw [hr] at h
      by_cases hc : c = '_'
      · rw [if_pos hc] at h
        injection h with h2
        injection h2 with hA hB
        subst hA
        subst hB
        simp [hc]
      · rw [if_neg hc] at h
        cases h

theorem typeidLibOk_at {s : String} (h : '@' ∈ s.data) : typeidLibOk s = false := by
  unfold typeidLibOk
  cases hl : lastUnderscoreSplit s.data with
  | none => rfl
  | some pr =>
    obtain ⟨p, suf⟩ := pr
    have hdec := lus_decomp hl
    rw [hdec] at h
    rcases List.mem_append.1 h with hp | hsuf
    · simp [all_false_of_mem (fun c => isAsciiLower c || c = '_') hp (by decide)]
    · rcases List.mem_cons.1 hsuf with h_ | hsuf'
      · exact absurd h_ (by decide)
      · simp [all_false_of_mem isCrockfordLower hsuf' (by decide)]

theorem typeid_rejects_at {s : String} (h : '@' ∈ s.data) :
    TypeIDParser.canParse s = false := by
  unfold TypeIDParser.canParse
  split_ifs with h1
  · rfl
  · exact typeidLibOk_at h

theorem nuid_rejects_at {s : String} (h : '@' ∈ s.data) :
    NUIDParser.canParse s = false := by
  unfold NUIDParser.canParse
  split_ifs with h1 h2
  · rfl
  · rfl
  · exfalso
    simp [NUIDParser.regexMatch, all_false_of_mem isBase62Char h (by decide)] at h2

theorem shortuuid_rejects_at {s : String} (h : '@' ∈ s.data) :
    ShortUUIDParser.canParse s = false := by
  unfold ShortUUIDParser.canParse
  split_ifs with h1
  · rfl
  · unfold shortuuidDecode
    simp [all_false_of_mem isBase57Char h (by decide)]

theorem sqids_rejects_at {s : String} (h : '@' ∈ s.data) :
    SqidsParser.canParse s = false := by
  unfold SqidsParser.canParse
  split_ifs with h1
  · rfl
  · unfold sqidsDecodeNonEmpty
    simp [all_false_of_mem isSqidsChar h (by decide)]

theorem nanoid_rejects_at {s : String} (h : '@' ∈ s.data) :
    NanoIDParser.canParse s = false := by
  unfold NanoIDParser.canParse
  split_ifs with h1 h2
  · rfl
  · rfl
  · exact all_false_of_mem isNanoIDChar h (by decide)

theorem snowflake_rejects_at {s : String} (h : '@' ∈ s.data) :
    SnowflakeParser.canParse s = false := by
  unfold SnowflakeParser.canParse
  split_ifs with h1
  · rfl
  · exfalso
    simp [SnowflakeParser.regexMatch,
      all_false_of_mem isAsciiDigit h (by decide)] at h1

theorem unixtime_rejects_at {s : String} (h : '@' ∈ s.data) :
    UnixTimeParser.canParse s = false := by
  unfold UnixTimeParser.canParse
  have hne : s.data ≠ ['0'] := by
    intro hcon
    rw [hcon] at h
    rcases List.mem_cons.1 h with h0 | h0
    · exact absurd h0 (by decide)
    · cases h0
  split_ifs with h1
  · rfl
  · exfalso
    simp [UnixTimeParser.regexMatch, hne,
      all_false_of_mem isAsciiDigit h (by decide)] at h1

theorem hashhex_rejects_at {s : String} (h : '@' ∈ s.data) :
    HashHexParser.canParse s = false := by
  unfold HashHexParser.canParse
  split_ifs with h1 h2 h3
  · rfl
  · rfl
  · rfl
  · exfalso
    simp [all_false_of_mem isHexChar h (by decide)] at h1

theorem base58_rejects_at {s : String} (h : '@' ∈ s.data) :
    Base58Parser.canParse s = false := by
  unfold Base58Parser.canParse
  split_ifs with h1 h2 h3 h4
  · rfl
  · rfl
  · rfl
  · rfl
  · exfalso
    simp [all_false_of_mem isBase58Char h (by decide)] at h2

theorem pushid_rejects_at {s : String} (h : '@' ∈ s.data) :
    PushIDParser.canParse s = false := by
  unfold PushIDParser.canParse
  split_ifs with h1
  · rfl
  · exact all_false_of_mem isPushIDChar h (by decide)

theorem base32_rejects_at {s : String} (h : '@' ∈ s.data) :
    Base32Parser.canParse s = false := by
  unfold Base32Parser.canParse
  have hmap : '@' ∈ (goToUpper s).data := by
    unfold goToUpper
    rw [data_mk]
    exact List.mem_map.2 ⟨'@', h, by decide⟩
  have hbody : '@' ∈ ((goToUpper s).data.reverse.dropWhile (· = '=')).reverse :=
    List.mem_reverse.2
      (mem_dropWhile_of_not _ (List.mem_reverse.2 hmap) (by decide))
  split_ifs with h1 h2
  · rfl
  · rfl
  · exfalso
    apply h2
    unfold Base32Parser.regexMatch
    simp [all_false_of_mem isBase32StdChar hbody (by decide)]

/-- C9: every decoder rejects inputs violating its length or alphabet
constraints — the ULID decoder rejects every 21-character string, and
every one of the 19 registered decoders rejects every input containing
the character `@`. -/
theorem claim_C9_negative_rejection :
    (∀ s : String, s.length = 21 → ULIDParser.canParse s = false) ∧
    (∀ (nowNs : Int) (s : String), '@' ∈ s.data →
      (registry nowNs).all (fun d => !(d.canParse s)) = true) := by
  constructor
  · intro s h
    unfold ULIDParser.canParse
    rw [if_pos (by omega)]
  · intro nowNs s h
    simp only [registry, List.all_cons, List.all_nil, Bool.and_eq_true, and_true,
      uuidDecoder, ulidDecoder, objectIDDecoder, ksuidDecoder, xidDecoder, cuidDecoder,
      scru128Decoder, tsidDecoder, typeidDecoder, nuidDecoder, shortUUIDDecoder,
      sqidsDecoder, nanoIDDecoder, snowflakeDecoder, unixTimeDecoder, hashHexDecoder,
      base58Decoder, pushIDDecoder, base32Decoder]
    refine ⟨?_, ?_, ?_, ?_, ?_, ?_, ?_, ?_, ?_, ?_, ?_, ?_, ?_, ?_, ?_, ?_, ?_, ?_, ?_⟩
    · simp [uuid_rejects_at h]
    · simp [ulid_rejects_at h]
    · simp [objectid_rejects_at h]
    · simp [ksuid_rejects_at h]
    · simp [xid_rejects_at h]
    · simp [cuid_rejects_at h]
    · simp [scru128_rejects_at h]
    · simp [tsid_rejects_at h]
    · simp [typeid_rejects_at h]
    · simp [nuid_rejects_at h]
    · simp [shortuuid_rejects_at h]
    · simp [sqids_rejects_at h]
    · simp [nanoid_rejects_at h]
    · simp [snowflake_rejects_at h]
    · simp [unixtime_rejects_at h]
    · simp [hashhex_rejects_at h]
    · simp [base58_rejects_at h]
    · simp [pushid_rejects_at h]
    · simp [base32_rejects_at h]

theorem claim_C9_witness :
    (("012345678901234567890" : String).length = 21 ∧
      ULIDParser.canParse "012345678901234567890" = false) ∧
    ('@' ∈ ("id@1" : String).data ∧
      (registry 0).all (fun d => !(d.canParse "id@1")) = true) :=
  ⟨⟨by decide, claim_C9_negative_rejection.1 "012345678901234567890" (by decide)⟩,
   ⟨by decide, claim_C9_negative_rejection.2 0 "id@1" (by decide)⟩⟩


theorem unixStep_in (now : Int) (st : Int × Option UnixTimeParser.UnixCand)
    (c : UnixTimeParser.UnixCand)
    (hy : UnixTimeParser.yearInRange (Int.fdiv c.nanos 1000000000) = true)
    (hd : UnixTimeParser.absInt64 (Int.fdiv c.nanos 1000000000 - now) < st.1) :
    UnixTimeParser.unixStep now st c =
      (UnixTimeParser.absInt64 (Int.fdiv c.nanos 1000000000 - now), some c) := by
  unfold UnixTimeParser.unixStep
  rw [if_pos hy, if_pos hd]

theorem unixStep_skip (now : Int) (st : Int × Option UnixTimeParser.UnixCand)
    (c : UnixTimeParser.UnixCand)
    (hd : ¬(UnixTimeParser.absInt64 (Int.fdiv c.nanos 1000000000 - now) < st.1)) :
    UnixTimeParser.unixStep now st c = st := by
  unfold UnixTimeParser.unixStep
  split_ifs with hy
  · rfl
  · rfl

theorem unixStep_out (now : Int) (st : Int × Option UnixTimeParser.UnixCand)
    (c : UnixTimeParser.UnixCand)
    (hy : UnixTimeParser.yearInRange (Int.fdiv c.nanos 1000000000) = false) :
    UnixTimeParser.unixStep now st c = st := by
  unfold UnixTimeParser.unixStep
  rw [if_neg (by simp [hy])]

theorem fdiv_sec : Int.fdiv ((1609459200 : Int) * 1000000000) 1000000000 = 1609459200 := by
  decide

theorem fdiv_milli : Int.fdiv ((1609459200 : Int) * 1000000) 1000000000 = 1609459 := by decide

theorem fdiv_micro : Int.fdiv ((1609459200 : Int) * 1000) 1000000000 = 1609 := by decide

theorem fdiv_nano : Int.fdiv (1609459200 : Int) 1000000000 = 1 := by decide

theorem yearInRange_2021 : UnixTimeParser.yearInRange 1609459200 = true := by decide

theorem yearInRange_ms : UnixTimeParser.yearInRange 1609459 = true := by decide

theorem yearInRange_us : UnixTimeParser.yearInRange 1609 = true := by decide

theorem yearInRange_ns : UnixTimeParser.yearInRange 1 = true := by decide

theorem absInt64_nonpos {x : Int} (h : x ≤ 0) : UnixTimeParser.absInt64 x = -x := by
  unfold UnixTimeParser.absInt64
  split_ifs <;> omega

theorem unixSelect_spec (now : Int) (h1 : 1609459200 ≤ now) (h2 : now ≤ 4133980799) :
    UnixTimeParser.unixSelect 1609459200 now =
      ⟨1609459200 * 1000000000, "seconds", "second"⟩ := by
  have ha1 : UnixTimeParser.absInt64 ((1609459200 : Int) - now) = now - 1609459200 := by
    rw [absInt64_nonpos (by omega)]; omega
  have ha2 : UnixTimeParser.absInt64 ((1609459 : Int) - now) = now - 1609459 := by
    rw [absInt64_nonpos (by omega)]; omega
  have ha3 : UnixTimeParser.absInt64 ((1609 : Int) - now) = now - 1609 := by
    rw [absInt64_nonpos (by omega)]; omega
  have ha4 : UnixTimeParser.absInt64 ((1 : Int) - now) = now - 1 := by
    rw [absInt64_nonpos (by omega)]; omega
  unfold UnixTimeParser.unixSelect UnixTimeParser.unixCandidates
  rw [List.foldl_cons,
    unixStep_in now _ _ (by rw [fdiv_sec]; exact yearInRange_2021)
      (by rw [fdiv_sec, ha1]; omega)]
  rw [fdiv_sec, ha1]
  rw [List.foldl_cons, unixStep_skip now _ _ (by rw [fdiv_milli, ha2]; omega)]
  rw [List.foldl_cons, unixStep_skip now _ _ (by rw [fdiv_micro, ha3]; omega)]
  rw [List.foldl_cons, unixStep_skip now _ _ (by rw [fdiv_nano, ha4]; omega)]
  rfl

/-- C5: the Unix-timestamp decoder tries the seconds, milliseconds,
microseconds and nanoseconds interpretations, keeps those whose calendar
year lies in [1970, 2100] and picks the one closest to the clock,
defaulting to seconds when no candidate qualifies; in particular, for any
clock between 2021-01-01T00:00:00Z and the end of the year 2100, parsing
`1609459200` yields the seconds interpretation 2021-01-01T00:00:00Z. -/
theorem claim_C5_unit_disambiguation :
    (∀ now : Int, 1609459200 ≤ now → now ≤ 4133980799 →
      (UnixTimeParser.parse now "1609459200").map
        (fun r => (r.idType, r.datetimeNanos)) =
        some ("Unix timestamp (seconds)", some (1609459200 * 1000000000))) ∧
    (∀ ts now : Int,
      (UnixTimeParser.unixCandidates ts).all
        (fun c => !(UnixTimeParser.yearInRange (Int.fdiv c.nanos 1000000000))) = true →
      UnixTimeParser.unixSelect ts now = ⟨ts * 1000000000, "seconds", "second"⟩) := by
  constructor
  · intro now ha hb
    have hsel := unixSelect_spec now ha hb
    have hcast : (((1609459200 : Nat) : Int)) = (1609459200 : Int) := rfl
    unfold UnixTimeParser.parse
    rw [show goParseUint64 "1609459200" = some 1609459200 from by decide]
    simp only [hcast]
    rw [if_pos (by omega : (1609459200 : Nat) ≤ 9223372036854775807)]
    rw [hcast, hsel]
    rfl
  · intro ts now hall
    unfold UnixTimeParser.unixCandidates at hall
    simp only [List.all_cons, List.all_nil, Bool.and_eq_true, and_true,
      Bool.not_eq_true'] at hall
    obtain ⟨c1, c2, c3, c4⟩ := hall
    unfold UnixTimeParser.unixSelect UnixTimeParser.unixCandidates
    rw [List.foldl_cons,
      unixStep_out now _ ⟨ts * 1000000000, "seconds", "second"⟩ c1]
    rw [List.foldl_cons,
      unixStep_out now _ ⟨ts * 1000000, "milliseconds", "millisecond"⟩ c2]
    rw [List.foldl_cons,
      unixStep_out now _ ⟨ts * 1000, "microseconds", "microsecond"⟩ c3]
    rw [List.foldl_cons,
      unixStep_out now _ ⟨ts, "nanoseconds", "nanosecond"⟩ c4]
    rfl

theorem claim_C5_witness :
    ((1609459200 : Int) ≤ 1700000000 ∧ (1700000000 : Int) ≤ 4133980799 ∧
      (UnixTimeParser.parse 1700000000 "1609459200").map
        (fun r => (r.idType, r.datetimeNanos)) =
        some ("Unix timestamp (seconds)", some (1609459200 * 1000000000))) ∧
    ((UnixTimeParser.unixCandidates 5000000000000000000).all
        (fun c => !(UnixTimeParser.yearInRange (Int.fdiv c.nanos 1000000000))) = true ∧
      UnixTimeParser.unixSelect 5000000000000000000 0 =
        ⟨5000000000000000000 * 1000000000, "seconds", "second"⟩) :=
  ⟨⟨by decide, by decide,
    claim_C5_unit_disambiguation.1 1700000000 (by decide) (by decide)⟩,
   ⟨by decide, claim_C5_unit_disambiguation.2 5000000000000000000 0 (by decide)⟩⟩

end IdInfo
